import Mathlib

/-!
Shallow embedding of the WatchTogether server (socket event handlers in the
main server module, SFU control plane in mediasoup.ts) together with the
parts of the rooms module that are referenced but whose source is absent
(those definitions are modelled from the spec and marked as such).

Conventions of the embedding:
* Wall-clock times are integers (milliseconds); playback positions and
  playback rates are rationals (the source uses JS numbers).
* JS Maps keyed by socket id are association lists `List (String × α)`
  preserving insertion order; `Map.set` on an absent key appends at the end.
* Every handler is a pure function from the pre-state (plus the payload and
  a `now` stamp, and fresh ids that the source mints with nanoid) to the
  post-state together with the list of outbound wire events it emits, in
  emission order.  Handlers that take an ack callback also return the list
  of callback invocations, so that "the callback fires exactly once" is the
  statement that this list has length one.
-/

namespace WatchTogether

/-- Video classification, from the source type `'youtube' | 'direct'`. -/
inductive VideoType
  | youtube
  | direct
deriving Repr, DecidableEq

/-- Participant record (server types.ts `User`, the fields the handlers use). -/
structure User where
  id : String
  name : String
deriving Repr, DecidableEq

/-- Queue entry (server types.ts `QueueItem`). -/
structure QueueItem where
  id : String
  videoId : String
  videoUrl : String
  title : String
  addedBy : String
  addedAt : Int
deriving Repr, DecidableEq

/-- Chat message kind (`'message' | 'system'`). -/
inductive MsgKind
  | message
  | system
deriving Repr, DecidableEq

/-- Chat message (server types.ts `ChatMessage`; the source field `type` is
named `kind` here). -/
structure ChatMessage where
  id : String
  userId : String
  userName : String
  avatar : String
  text : String
  timestamp : Int
  kind : MsgKind
deriving Repr, DecidableEq

/-- Room state (server types.ts `Room`).  `users` is the insertion-ordered
map from socket id to user; `voiceUsers` is the voice membership set;
`screenSharerId` is `null` or a socket id (in the source it is only ever
assigned a socket id, which is a nonempty string, so JS truthiness of the
field coincides with it being non-null). -/
structure Room where
  id : String
  hostId : String
  users : List (String × User)
  videoUrl : String
  videoId : String
  videoType : VideoType
  isPlaying : Bool
  currentTime : ℚ
  lastSyncTime : Int
  playbackRate : ℚ
  seq : Nat
  queue : List QueueItem
  messages : List ChatMessage
  voiceUsers : List String
  screenSharerId : Option String
deriving Repr, DecidableEq

/-- Outbound snapshot (server types.ts `VideoState`). -/
structure VideoState where
  videoId : String
  videoUrl : String
  videoType : VideoType
  isPlaying : Bool
  currentTime : ℚ
  playbackRate : ℚ
  timestamp : Int
  seq : Nat
deriving Repr, DecidableEq

/-- Destination of an outbound event: `io.to(roomId)` (every member),
`socket.to(roomId)` (every member except the sender), or a unicast to one
socket (`socket.emit` on the sender, or `io.to(socketId)`). -/
inductive Dest
  | room (roomId : String)
  | others (roomId : String)
  | conn (socketId : String)
deriving Repr, DecidableEq

/-- Outbound wire events emitted by the handlers under study. -/
inductive OutEvent
  | videoStateUpdate (d : Dest) (vs : VideoState)
  | videoLoad (d : Dest) (vs : VideoState)
  | videoHeartbeat (d : Dest) (vs : VideoState)
  | queueUpdate (d : Dest) (queue : List QueueItem)
  | chatMessage (d : Dest) (m : ChatMessage)
  | errorMsg (d : Dest) (message : String)
  | screenStarted (d : Dest) (sharerId : String)
  | screenStopped (d : Dest)
  | screenViewerJoined (d : Dest) (viewerId : String)
  | voiceUserJoined (d : Dest) (userId : String)
  | voiceUserLeft (d : Dest) (userId : String)
  | voiceNewProducer (d : Dest) (socketId : String) (producerId : String)
  | voiceProducerClosed (d : Dest) (socketId : String) (producerId : String)
deriving Repr, DecidableEq

/-- Modelled from the spec: the `rooms.js` module (absent from the sources;
only its import list is visible) defines the effective playback position.
Spec §3: computed position at wall-clock `t` is
`isPlaying ? anchorPosition + (t − anchorWallTime)/1000 * rate : anchorPosition`,
where the anchor fields are `currentTime` / `lastSyncTime` in the source. -/
def effectivePosition (room : Room) (now : Int) : ℚ :=
  if room.isPlaying then
    room.currentTime + ((now - room.lastSyncTime : Int) : ℚ) / 1000 * room.playbackRate
  else
    room.currentTime

/-- Modelled from the spec: `getVideoState` lives in `rooms.js`, absent from
the sources.  Spec §4.2.2: every outbound snapshot carries the computed
effective position at emission time and stamps that emission time; the
other fields are copied from the room, in particular `seq` is copied, never
advanced, by taking a snapshot. -/
def getVideoState (room : Room) (now : Int) : VideoState :=
  { videoId := room.videoId
    videoUrl := room.videoUrl
    videoType := room.videoType
    isPlaying := room.isPlaying
    currentTime := effectivePosition room now
    playbackRate := room.playbackRate
    timestamp := now
    seq := room.seq }

/-- Modelled from the spec: `addMessage` lives in `rooms.js`, absent from
the sources.  Spec §4.3: system messages are injected by the dispatcher
with author `system`.  The handlers in the source call
`addMessage(room, system, empty)` and then overwrite the text and author
fields of the returned (shared) message object; this helper folds the two
steps into appending the fully formed system message.  The spec notes the
chat cap is not enforced in the source, so no cap is applied. -/
def addSystemMessage (room : Room) (text msgId : String) (now : Int) :
    Room × ChatMessage :=
  let msg : ChatMessage :=
    { id := msgId, userId := "system", userName := "System", avatar := "🤖"
      text := text, timestamp := now, kind := .system }
  ({ room with messages := room.messages ++ [msg] }, msg)

/-- Handler for `video:play` (main server module).  The source resolves the
room from the sender and drops the event when there is none; given the room
the body reads no other property of the sender, so the embedding takes the
room directly.  When `isPlaying` is already true the handler returns before
touching any state (echo suppression). -/
def videoPlay (room : Room) (now : Int) : Room × List OutEvent :=
  if room.isPlaying then (room, [])
  else
    let room1 := { room with isPlaying := true, lastSyncTime := now, seq := room.seq + 1 }
    (room1, [.videoStateUpdate (.room room.id) (getVideoState room1 now)])

/-- Handler for `video:pause` (main server module).  When `isPlaying` is
already false the handler returns before touching any state. -/
def videoPause (room : Room) (currentTime : ℚ) (now : Int) : Room × List OutEvent :=
  if !room.isPlaying then (room, [])
  else
    let room1 := { room with isPlaying := false, currentTime := currentTime
                             lastSyncTime := now, seq := room.seq + 1 }
    (room1, [.videoStateUpdate (.room room.id) (getVideoState room1 now)])

/-- Handler for `video:seek` (main server module). -/
def videoSeek (room : Room) (currentTime : ℚ) (now : Int) : Room × List OutEvent :=
  let room1 := { room with currentTime := currentTime, lastSyncTime := now
                           seq := room.seq + 1 }
  (room1, [.videoStateUpdate (.room room.id) (getVideoState room1 now)])

/-- Handler for `video:rate` (main server module).  The source sets
`playbackRate` and bumps `seq`; it does not touch `currentTime` or
`lastSyncTime`. -/
def videoRate (room : Room) (rate : ℚ) (now : Int) : Room × List OutEvent :=
  let room1 := { room with playbackRate := rate, seq := room.seq + 1 }
  (room1, [.videoStateUpdate (.room room.id) (getVideoState room1 now)])

/-- Handler for `video:ended` (main server module).  `locked` is whether the
room id is currently in the module-level `endedProcessing` set; the source
checks the queue for emptiness first, then the lock, then pops the queue
head, makes it the current video, bumps `seq`, emits `video:load`,
`queue:update` and a system chat message, and schedules the lock release
2000 ms later (release is outside the window this function models, so the
lock is returned still held). -/
def videoEnded (room : Room) (locked : Bool) (now : Int) (msgId : String) :
    Room × Bool × List OutEvent :=
  match room.queue with
  | [] => (room, locked, [])
  | next :: rest =>
    if locked then (room, locked, [])
    else
      let room1 := { room with
        videoId := next.videoId
        videoUrl := next.videoUrl
        videoType := if next.videoId ≠ "" then .youtube else .direct
        isPlaying := true
        currentTime := 0
        lastSyncTime := now
        seq := room.seq + 1
        queue := rest }
      let (room2, msg) := addSystemMessage room1
        ("Now playing next in queue: " ++ next.title) msgId now
      (room2, true,
        [ .videoLoad (.room room.id) (getVideoState room1 now)
        , .queueUpdate (.room room.id) rest
        , .chatMessage (.room room.id) msg ])

/-- Sequential delivery of several `video:ended` events for one room inside
a single ended-lock window (the timed release never fires in between).
Each event carries its own wall-clock stamp and fresh message id; the
events accumulate in arrival order. -/
def videoEndedRun (room : Room) (locked : Bool) :
    List (Int × String) → Room × Bool × List OutEvent
  | [] => (room, locked, [])
  | (now, msgId) :: rest =>
    let r1 := videoEnded room locked now msgId
    let r2 := videoEndedRun r1.1 r1.2.1 rest
    (r2.1, r2.2.1, r1.2.2 ++ r2.2.2)

/-- Character-list test: does the second list start with the first? -/
def startsWithChars : List Char → List Char → Bool
  | [], _ => true
  | _ :: _, [] => false
  | m :: ms, c :: cs => m = c && startsWithChars ms cs

/-- The suffix right after the first occurrence of `marker`, when any. -/
def afterFirst (marker : List Char) : List Char → Option (List Char)
  | [] => none
  | c :: cs =>
    if startsWithChars marker (c :: cs) then some ((c :: cs).drop marker.length)
    else afterFirst marker cs

/-- Does `marker` occur anywhere in the list? -/
def containsChars (marker : List Char) : List Char → Bool
  | [] => startsWithChars marker []
  | c :: cs => startsWithChars marker (c :: cs) || containsChars marker cs

/-- The characters strictly before the first occurrence of `stop`. -/
def takeUntilChar (stop : Char) (l : List Char) : List Char :=
  l.takeWhile fun c => c ≠ stop

/-- The suffix after the last occurrence of `sep` (the whole list when
`sep` does not occur), as JS `split(sep).pop()` computes it. -/
def lastPieceAfter (sep : Char) (l : List Char) : List Char :=
  l.foldl (fun acc c => if c = sep then [] else acc ++ [c]) []

/-- Modelled from the spec: `extractVideoId` lives in `rooms.js`, absent
from the sources.  Spec §4.2: extract the 11-character video id from the
common YouTube URL shapes (`watch?v=ID`, `youtu.be/ID`, `embed/ID`); id
characters are alphanumerics, dash and underscore. -/
def extractVideoId (url : String) : Option String :=
  let cs := url.toList
  let cand := ((afterFirst "v=".toList cs).orElse fun _ =>
    ((afterFirst "youtu.be/".toList cs).orElse fun _ => afterFirst "embed/".toList cs))
  match cand with
  | none => none
  | some s =>
    let id := s.takeWhile fun c => c.isAlphanum || c = '-' || c = '_'
    if id.length = 11 then some (String.mk id) else none

/-- Modelled from the spec: the direct-playable extension list of
`detectVideoType` in `rooms.js` (spec §4.2 lists mp4, webm, mov, mkv,
m3u8). -/
def directExtensions : List String := ["mp4", "webm", "mov", "mkv", "m3u8"]

/-- Modelled from the spec: `detectVideoType` lives in `rooms.js`, absent
from the sources.  Spec §4.2: classify a URL as `youtube` when an
11-character video id can be extracted, as `direct` when the extension of
the path before the query suffix is in the direct list (also accepting an
`.m3u8` anywhere before the query suffix), and as unclassifiable
otherwise. -/
def detectVideoType (url : String) : Option VideoType :=
  if (extractVideoId url).isSome then some .youtube
  else
    let path := takeUntilChar '?' url.toList
    let ext := lastPieceAfter '.' path
    if (directExtensions.map String.toList).contains ext then some .direct
    else if containsChars ".m3u8".toList path then some .direct
    else none

/-- Ack payload for `queue:add` and `room:join` style callbacks:
`{success, error?}`. -/
structure Ack where
  success : Bool
  errorText : Option String
deriving Repr, DecidableEq

/-- The queue item `queue:add` constructs (main server module): nanoid id,
extracted video id for YouTube URLs, title = video id for YouTube or the
URL tail before the query for direct URLs (falling back to a fixed label),
adder = the sender display name (falling back when unknown or empty, as JS
`user?.name || fallback` does). -/
def mkQueueItem (room : Room) (sender url itemId : String) (now : Int)
    (videoType : VideoType) : QueueItem :=
  let videoId := if videoType = .youtube then (extractVideoId url).getD "" else ""
  let userName :=
    match (room.users.lookup sender).map User.name with
    | some n => if n = "" then "Someone" else n
    | none => "Someone"
  let title :=
    if videoType = .youtube then videoId
    else
      let t0 := takeUntilChar '?' (lastPieceAfter '/' url.toList)
      if t0 = [] then "Direct Video" else String.mk t0
  { id := itemId, videoId := videoId, videoUrl := url, title := title
    addedBy := userName, addedAt := now }

/-- Handler for `queue:add` (main server module), given the resolved room.
`itemId` and `msgId` stand for the nanoid values the source mints; the
asynchronous oEmbed title refresh is outside the synchronous window this
function models.  Returns the post-state, the emitted events, and the list
of ack-callback invocations. -/
def queueAdd (room : Room) (sender url itemId msgId : String) (now : Int) :
    Room × List OutEvent × List Ack :=
  if room.queue.length ≥ 50 then
    (room, [], [⟨false, some "Queue is full (max 50 items)"⟩])
  else
    match detectVideoType url with
    | none =>
      (room, [], [⟨false, some "Invalid URL. Paste a YouTube link or a direct video URL."⟩])
    | some videoType =>
      let item := mkQueueItem room sender url itemId now videoType
      let room1 := { room with queue := room.queue ++ [item] }
      let (room2, msg) := addSystemMessage room1
        (item.addedBy ++ " added a video to the queue") msgId now
      (room2,
        [ .queueUpdate (.room room.id) room1.queue
        , .chatMessage (.room room.id) msg ],
        [⟨true, none⟩])

/-- Handler for `queue:reorder` (main server module).  The source finds the
item by id (dropped when absent), clamps the requested index into
`[0, length − 1]` against the pre-removal length, removes the item and
re-inserts it at the clamped index. -/
def queueReorder (room : Room) (itemId : String) (newIndex : Int) :
    Room × List OutEvent :=
  match room.queue.findIdx? (fun item => item.id = itemId) with
  | none => (room, [])
  | some idx =>
    match room.queue[idx]? with
    | none => (room, [])
    | some item =>
      let j : Nat := (max 0 (min newIndex ((room.queue.length : Int) - 1))).toNat
      let q1 := (room.queue.eraseIdx idx).insertIdx j item
      let room1 := { room with queue := q1 }
      (room1, [.queueUpdate (.room room.id) q1])

/-- Handler for `screen:start` (main server module), given the resolved
room and the sending socket id.  With a sharer already present (the field
is only ever a socket id, so JS truthiness is non-nullness) the handler
unicasts one error and stops; otherwise it records the sender as sharer,
notifies everyone else, and unicasts the sender one viewer-joined per
other member, in user-map insertion order. -/
def screenStart (room : Room) (sender : String) : Room × List OutEvent :=
  match room.screenSharerId with
  | some _ => (room, [.errorMsg (.conn sender) "Someone is already sharing their screen"])
  | none =>
    let room1 := { room with screenSharerId := some sender }
    let viewerEvts := ((room.users.map Prod.fst).filter fun uid => uid != sender).map
      fun uid => OutEvent.screenViewerJoined (.conn sender) uid
    (room1, .screenStarted (.others room.id) sender :: viewerEvts)

/-- One tick of the heartbeat interval (main server module).  The source
iterates all rooms, skips rooms with fewer than two users, rooms not
playing, and rooms with neither a video id nor a video URL, and emits a
`video:heartbeat` snapshot to each remaining room; the loop body contains
no assignment, so the rooms are returned unchanged. -/
def heartbeatTick (rooms : List Room) (now : Int) : List Room × List OutEvent :=
  (rooms, rooms.flatMap fun room =>
    if room.users.length < 2 || !room.isPlaying then []
    else if room.videoId = "" && room.videoUrl = "" then []
    else [.videoHeartbeat (.room room.id) (getVideoState room now)])

/-! ### SFU control plane (mediasoup.ts) -/

/-- SFU audio producer: the control-plane attributes the handlers read. -/
structure Producer where
  id : String
  closed : Bool
deriving Repr, DecidableEq

/-- SFU consumer. -/
structure Consumer where
  id : String
  producerId : String
deriving Repr, DecidableEq

/-- SFU WebRTC transport (control-plane identity only). -/
structure Transport where
  id : String
deriving Repr, DecidableEq

/-- Per-participant SFU state (mediasoup.ts `PeerState`). -/
structure PeerState where
  sendTransport : Option Transport
  recvTransport : Option Transport
  producer : Option Producer
  consumers : List (String × Consumer)
deriving Repr, DecidableEq

/-- The empty peer created by `ensurePeer` / first transport creation. -/
def emptyPeer : PeerState :=
  { sendTransport := none, recvTransport := none, producer := none, consumers := [] }

/-- Per-room SFU state (mediasoup.ts `RoomState`, router abstracted to its
existence): the socket-id-keyed peer map. -/
structure SfuRoomState where
  peers : List (String × PeerState)
deriving Repr, DecidableEq

/-- The module-level `rooms` map of mediasoup.ts. -/
abbrev SfuState : Type := List (String × SfuRoomState)

/-- JS `Map.set`: replace in place when the key exists, append otherwise. -/
def mapSet {α : Type} (m : List (String × α)) (k : String) (v : α) :
    List (String × α) :=
  if (m.lookup k).isSome then
    m.map fun kv => if kv.1 = k then (k, v) else kv
  else
    m ++ [(k, v)]

/-- JS `Map.delete`: drop the entry with the given key. -/
def mapDelete {α : Type} (m : List (String × α)) (k : String) :
    List (String × α) :=
  m.filter fun kv => kv.1 ≠ k

/-- The peer set the SFU holds for a room (empty when the room has no
router yet). -/
def sfuPeers (sfu : SfuState) (roomId : String) : List (String × PeerState) :=
  ((sfu.lookup roomId).map SfuRoomState.peers).getD []

/-- mediasoup.ts `getOrCreateRouter`, state part: an existing SFU room is
kept; otherwise a fresh router with an empty peer map is registered. -/
def ensureSfuRoom (sfu : SfuState) (roomId : String) : SfuState :=
  if (List.lookup roomId sfu).isSome then sfu
  else sfu ++ [(roomId, { peers := [] })]

/-- mediasoup.ts `ensurePeer`: register an empty peer for the socket when
the SFU room exists and has no entry for it. -/
def ensurePeer (sfu : SfuState) (roomId socketId : String) : SfuState :=
  match List.lookup roomId sfu with
  | none => sfu
  | some room =>
    if (room.peers.lookup socketId).isSome then sfu
    else mapSet sfu roomId { peers := room.peers ++ [(socketId, emptyPeer)] }

/-- The loop body of mediasoup.ts `getExistingProducers`: a peer-map entry
contributes `(socketId, producerId)` exactly when the socket is not the
excluded one and its producer exists and is not closed. -/
def producingEntry (excludeSocketId : String) (kv : String × PeerState) :
    Option (String × String) :=
  if kv.1 ≠ excludeSocketId then
    match kv.2.producer with
    | some p => if !p.closed then some (kv.1, p.id) else none
    | none => none
  else none

/-- mediasoup.ts `getExistingProducers`: every peer of the room other than
`excludeSocketId` whose producer exists and is not closed, as
`(socketId, producerId)` pairs in peer-map order. -/
def getExistingProducers (sfu : SfuState) (roomId excludeSocketId : String) :
    List (String × String) :=
  (sfuPeers sfu roomId).filterMap (producingEntry excludeSocketId)

/-- One `.close()` call issued during peer teardown, in issue order. -/
inductive CloseAction
  | consumer (id : String)
  | producer (id : String)
  | transport (id : String)
deriving Repr, DecidableEq

/-- mediasoup.ts `removePeer`: look up the room and the peer (either
missing is a no-op returning null), remember the producer id, close all
consumers, then the producer, then the send transport, then the receive
transport, delete the peer from the room map, and return the producer id
(null when the peer had no producer).  The close calls are returned as an
ordered trace. -/
def removePeer (sfu : SfuState) (roomId socketId : String) :
    SfuState × Option String × List CloseAction :=
  match List.lookup roomId sfu with
  | none => (sfu, none, [])
  | some room =>
    match room.peers.lookup socketId with
    | none => (sfu, none, [])
    | some peer =>
      let producerId := peer.producer.map Producer.id
      let trace :=
        (peer.consumers.map fun kv => CloseAction.consumer kv.2.id)
        ++ (match peer.producer with
            | some p => [CloseAction.producer p.id]
            | none => [])
        ++ (match peer.sendTransport with
            | some t => [CloseAction.transport t.id]
            | none => [])
        ++ (match peer.recvTransport with
            | some t => [CloseAction.transport t.id]
            | none => [])
      let sfu1 := mapSet sfu roomId { peers := mapDelete room.peers socketId }
      (sfu1, producerId, trace)

/-- mediasoup.ts `cleanupRoom`: when the room exists and its peer map is
empty, close the router and drop the room entry. -/
def cleanupSfuRoom (sfu : SfuState) (roomId : String) : SfuState :=
  match List.lookup roomId sfu with
  | none => sfu
  | some room => if room.peers = [] then mapDelete sfu roomId else sfu

/-- Ack payload of `voice:join`: the router RTP capabilities (abstracted;
the handlers never inspect them) and the `{socketId, producerId}` list of
existing producers. -/
structure VoiceJoinAck where
  existingProducers : List (String × String)
deriving Repr, DecidableEq

/-- Result of the `voice:join` handler. -/
structure VoiceJoinResult where
  room : Option Room
  sfu : SfuState
  events : List OutEvent
  acks : List VoiceJoinAck
deriving DecidableEq

/-- Handler for `voice:join` (main server module).  The source resolves the
room from the sender; when there is none it logs and returns WITHOUT
invoking the ack callback.  Otherwise it ensures the router and the peer,
adds the sender to `voiceUsers`, notifies the other members, and invokes
the callback once with the RTP capabilities and the other members'
existing producers. -/
def voiceJoin (mroom : Option Room) (sfu : SfuState) (caller : String) :
    VoiceJoinResult :=
  match mroom with
  | none => { room := none, sfu := sfu, events := [], acks := [] }
  | some room =>
    let sfu1 := ensurePeer (ensureSfuRoom sfu room.id) room.id caller
    let room1 := { room with
      voiceUsers := if room.voiceUsers.contains caller then room.voiceUsers
                    else room.voiceUsers ++ [caller] }
    { room := some room1
      sfu := sfu1
      events := [.voiceUserJoined (.others room.id) caller]
      acks := [{ existingProducers := getExistingProducers sfu1 room.id caller }] }

/-- Result of voice teardown (the `voice:leave` handler, or the voice
block of `handleDisconnect`). -/
structure VoiceLeaveResult where
  room : Room
  sfu : SfuState
  events : List OutEvent
  closes : List CloseAction
deriving DecidableEq

/-- Handler for `voice:leave` (main server module), given the resolved
room: `removePeer`, drop the sender from `voiceUsers`, emit
`voice:user-left` to the others, emit `voice:producer-closed` exactly when
`removePeer` returned a producer id, then `cleanupRoom`. -/
def voiceLeave (room : Room) (sfu : SfuState) (caller : String) :
    VoiceLeaveResult :=
  let rp := removePeer sfu room.id caller
  let room1 := { room with voiceUsers := room.voiceUsers.filter (· ≠ caller) }
  let events :=
    [OutEvent.voiceUserLeft (.others room.id) caller]
    ++ (match rp.2.1 with
        | some pid => [OutEvent.voiceProducerClosed (.others room.id) caller pid]
        | none => [])
  { room := room1, sfu := cleanupSfuRoom rp.1 room.id, events := events, closes := rp.2.2 }

/-- The voice-cleanup block at the top of `handleDisconnect` (main server
module): when the departing socket is in `voiceUsers`, the exact
`voice:leave` sequence runs; otherwise nothing happens. -/
def disconnectVoiceCleanup (room : Room) (sfu : SfuState) (caller : String) :
    VoiceLeaveResult :=
  if room.voiceUsers.contains caller then voiceLeave room sfu caller
  else { room := room, sfu := sfu, events := [], closes := [] }

/-! ### Claim-side predicates and concrete fixtures -/

/-- Eligibility for a heartbeat, as the spec words it: at least two
participants, playing, and a loaded video (non-empty video id or URL). -/
def heartbeatEligible (room : Room) : Bool :=
  decide (2 ≤ room.users.length) && room.isPlaying &&
    (decide (room.videoId ≠ "") || decide (room.videoUrl ≠ ""))

/-- Recognizer for `video:load` events. -/
def isVideoLoadEvt : OutEvent → Bool
  | .videoLoad _ _ => true
  | _ => false

/-- Recognizer for `queue:update` events. -/
def isQueueUpdateEvt : OutEvent → Bool
  | .queueUpdate _ _ => true
  | _ => false

/-- Fixture: a two-user room with a playing YouTube video, anchored at
position 0 at wall time 0, rate 1. -/
def baseRoom : Room :=
  { id := "ABC123", hostId := "s1"
    users := [("s1", { id := "u1", name := "Alice" }), ("s2", { id := "u2", name := "Bob" })]
    videoUrl := "https://youtu.be/dQw4w9WgXcQ"
    videoId := "dQw4w9WgXcQ"
    videoType := .youtube, isPlaying := true, currentTime := 0
    lastSyncTime := 0, playbackRate := 1, seq := 7, queue := []
    messages := [], voiceUsers := [], screenSharerId := none }

/-- Fixture: the same room, paused. -/
def pausedRoom : Room := { baseRoom with isPlaying := false }

/-- Fixture: the same room with an active screen sharer. -/
def busyRoom : Room := { baseRoom with screenSharerId := some "s9" }

/-- Fixture queue items. -/
def itemY : QueueItem :=
  { id := "q1", videoId := "yyyyyyyyyyy", videoUrl := "https://youtu.be/yyyyyyyyyyy"
    title := "Y", addedBy := "Alice", addedAt := 100 }

/-- Fixture queue item. -/
def itemZ : QueueItem :=
  { id := "q2", videoId := "", videoUrl := "https://cdn.example.com/z.mp4"
    title := "z.mp4", addedBy := "Bob", addedAt := 200 }

/-- Fixture: the room with a two-item queue. -/
def queueRoom : Room := { baseRoom with queue := [itemY, itemZ] }

/-- Fixture: the room with a full (50-item) queue. -/
def fullRoom : Room := { baseRoom with queue := List.replicate 50 itemY }

/-- Fixture: a peer with an open producer. -/
def producingPeer : PeerState :=
  { sendTransport := some { id := "t1" }, recvTransport := some { id := "t2" }
    producer := some { id := "p2", closed := false }
    consumers := [] }

/-- Fixture: a peer whose producer is closed. -/
def closedProducerPeer : PeerState :=
  { sendTransport := some { id := "t3" }, recvTransport := none
    producer := some { id := "p3", closed := true }
    consumers := [] }

/-- Fixture: a fully equipped peer (two consumers, producer, both
transports) used for the teardown claim. -/
def fullPeer : PeerState :=
  { sendTransport := some { id := "t4" }, recvTransport := some { id := "t5" }
    producer := some { id := "p1", closed := false }
    consumers := [("c1", { id := "c1", producerId := "p2" }),
                  ("c2", { id := "c2", producerId := "p3" })] }

/-- Fixture SFU state: room `ABC123` with peers `s2` (producing) and `s3`
(closed producer). -/
def sfuFixture : SfuState :=
  [("ABC123", { peers := [("s2", producingPeer), ("s3", closedProducerPeer)] })]

/-- Fixture SFU state for teardown: room `ABC123` with the fully equipped
peer `s1` and the producing peer `s2`. -/
def sfuLeaveFixture : SfuState :=
  [("ABC123", { peers := [("s1", fullPeer), ("s2", producingPeer)] })]

/-- Fixture: the room with `s1` and `s2` in the voice set. -/
def voiceRoom : Room := { baseRoom with voiceUsers := ["s1", "s2"] }

/-! ### Theorems -/

/-- C1 counterexample: from a playing room anchored at position 0 / wall
time 0 with rate 1, a `video:rate {rate: 2}` at wall time 10000 leaves the
anchor fields at (0, 0) instead of recomputing them to (10, 10000), and
the computed effective position jumps from 10 to 20 — not continuous for
any epsilon below 10 seconds. -/
theorem videoRate_discontinuity_cex :
    (videoRate baseRoom 2 10000).1.currentTime = 0 ∧
    (videoRate baseRoom 2 10000).1.lastSyncTime = 0 ∧
    effectivePosition baseRoom 10000 = 10 ∧
    effectivePosition (videoRate baseRoom 2 10000).1 10000 = 20 ∧
    effectivePosition (videoRate baseRoom 2 10000).1 10000 ≠ effectivePosition baseRoom 10000 := by
  refine ⟨rfl, rfl, ?_, ?_, ?_⟩ <;> norm_num [effectivePosition, videoRate, baseRoom]

/-- C1 (amended): the `video:rate` handler does NOT recompute the playback
anchor: it leaves `currentTime` and `lastSyncTime` unchanged, sets the
rate and increments `seq`; consequently the computed effective position
changes by `(now − anchorWallTime)/1000 · (r − oldRate)` while playing
(and is continuous only when that quantity vanishes). -/
theorem videoRate_keeps_anchor (room : Room) (rate : ℚ) (now : Int) :
    (videoRate room rate now).1.currentTime = room.currentTime ∧
    (videoRate room rate now).1.lastSyncTime = room.lastSyncTime ∧
    (videoRate room rate now).1.playbackRate = rate ∧
    (videoRate room rate now).1.seq = room.seq + 1 ∧
    effectivePosition (videoRate room rate now).1 now - effectivePosition room now =
      (if room.isPlaying then
        ((now - room.lastSyncTime : Int) : ℚ) / 1000 * (rate - room.playbackRate)
      else 0) := by
  refine ⟨rfl, rfl, rfl, rfl, ?_⟩
  by_cases h : room.isPlaying
  · simp [effectivePosition, videoRate, h]
    ring
  · simp [effectivePosition, videoRate, h]

/-- C2: a `video:play` received while the room is already playing, and a
`video:pause` received while it is already paused, leave the room state
(in particular `seq`, `currentTime` and `lastSyncTime`) untouched and emit
nothing; the handlers read nothing from the sending connection beyond the
room it resolves to, so this holds regardless of the sender. -/
theorem echoSuppressed_play_pause (room : Room) (ct : ℚ) (now : Int) :
    (room.isPlaying = true → videoPlay room now = (room, [])) ∧
    (room.isPlaying = false → videoPause room ct now = (room, [])) := by
  constructor <;> intro h <;> simp [videoPlay, videoPause, h]

/-- C2 witness: the suppressed paths at the concrete playing and paused
fixture rooms. -/
theorem echoSuppressed_play_pause_witness :
    videoPlay baseRoom 5000 = (baseRoom, []) ∧
    videoPause pausedRoom 3 5000 = (pausedRoom, []) :=
  ⟨(echoSuppressed_play_pause baseRoom 3 5000).1 rfl,
   (echoSuppressed_play_pause pausedRoom 3 5000).2 rfl⟩

/-- While the ended-lock is held, `video:ended` changes nothing and emits
nothing, whatever the queue holds. -/
theorem videoEnded_locked (room : Room) (now : Int) (msgId : String) :
    videoEnded room true now msgId = (room, true, []) := by
  cases h : room.queue <;> simp [videoEnded, h]

/-- A run of `video:ended` deliveries that starts with the lock held is a
global no-op. -/
theorem videoEndedRun_locked (room : Room) (evs : List (Int × String)) :
    videoEndedRun room true evs = (room, true, []) := by
  induction evs with
  | nil => rfl
  | cons e rest ih => cases e; simp [videoEndedRun, videoEnded_locked, ih]

/-- C3: within one ended-lock window, any non-empty burst of `video:ended`
events for a room with a non-empty queue collapses to its first event:
that event pops the queue head, makes it the current video (playing from
position 0), bumps `seq` exactly once, emits exactly one `video:load` and
one `queue:update`, and takes the lock; every later event of the burst
finds the lock held and changes no state and emits nothing. -/
theorem videoEnded_once_per_window (room : Room) (next : QueueItem) (rest : List QueueItem)
    (now : Int) (msgId : String) (evs : List (Int × String))
    (hq : room.queue = next :: rest) :
    videoEndedRun room false ((now, msgId) :: evs)
      = ((videoEnded room false now msgId).1, true, (videoEnded room false now msgId).2.2) ∧
    (videoEnded room false now msgId).1.queue = rest ∧
    (videoEnded room false now msgId).1.videoId = next.videoId ∧
    (videoEnded room false now msgId).1.videoUrl = next.videoUrl ∧
    (videoEnded room false now msgId).1.isPlaying = true ∧
    (videoEnded room false now msgId).1.currentTime = 0 ∧
    (videoEnded room false now msgId).1.seq = room.seq + 1 ∧
    (videoEnded room false now msgId).2.1 = true ∧
    (videoEnded room false now msgId).2.2.countP isVideoLoadEvt = 1 ∧
    (videoEnded room false now msgId).2.2.countP isQueueUpdateEvt = 1 ∧
    (∀ (r : Room) (n : Int) (m : String), videoEnded r true n m = (r, true, [])) := by
  have h21 : (videoEnded room false now msgId).2.1 = true := by
    simp [videoEnded, hq, addSystemMessage]
  refine ⟨?_, ?_⟩
  · simp only [videoEndedRun, h21, videoEndedRun_locked, List.append_nil]
  · refine ⟨?_, ?_, ?_, ?_, ?_, ?_, ?_, ?_, ?_, fun r n m => videoEnded_locked r n m⟩ <;>
      simp [videoEnded, hq, addSystemMessage, isVideoLoadEvt, isQueueUpdateEvt]

/-- C3 witness: a two-item queue and a burst of two `video:ended` events. -/
theorem videoEnded_once_witness :
    queueRoom.queue = itemY :: [itemZ] ∧
    videoEndedRun queueRoom false [(1000, "m1"), (1200, "m2")]
      = ((videoEnded queueRoom false 1000 "m1").1, true,
         (videoEnded queueRoom false 1000 "m1").2.2) ∧
    (videoEnded queueRoom false 1000 "m1").1.queue = [itemZ] :=
  ⟨rfl,
   (videoEnded_once_per_window queueRoom itemY [itemZ] 1000 "m1" [(1200, "m2")] rfl).1,
   (videoEnded_once_per_window queueRoom itemY [itemZ] 1000 "m1" [(1200, "m2")] rfl).2.1⟩

/-- Pointwise form of the heartbeat loop body: a room is emitted to
exactly when it is heartbeat-eligible. -/
theorem heartbeat_body_eq (room : Room) (now : Int) :
    (if room.users.length < 2 || !room.isPlaying then ([] : List OutEvent)
     else if room.videoId = "" && room.videoUrl = "" then []
     else [.videoHeartbeat (.room room.id) (getVideoState room now)])
    = if heartbeatEligible room
      then [.videoHeartbeat (.room room.id) (getVideoState room now)] else [] := by
  by_cases h1 : room.users.length < 2 <;> by_cases h2 : room.isPlaying <;>
    by_cases h3 : room.videoId = "" <;> by_cases h4 : room.videoUrl = "" <;>
    simp_all [heartbeatEligible, Nat.not_lt, Nat.lt_iff_add_one_le]

/-- C4: one heartbeat tick leaves every room untouched, emits one
`video:heartbeat` snapshot to exactly the eligible rooms (at least two
participants, playing, and a non-empty video id or URL), and the snapshot
carries the room sequence number unchanged — a tick never advances
`seq`. -/
theorem heartbeatTick_spec (rooms : List Room) (now : Int) :
    (heartbeatTick rooms now).1 = rooms ∧
    (heartbeatTick rooms now).2
      = (rooms.filter heartbeatEligible).map
          (fun r => .videoHeartbeat (.room r.id) (getVideoState r now)) ∧
    ∀ r : Room, (getVideoState r now).seq = r.seq := by
  refine ⟨rfl, ?_, fun r => rfl⟩
  induction rooms with
  | nil => rfl
  | cons r rs ih =>
    simp only [heartbeatTick] at ih ⊢
    rw [List.flatMap_cons, heartbeat_body_eq r now, ih, List.filter_cons]
    by_cases h : heartbeatEligible r <;> simp [h]

/-- C5: `queue:add` against a full (50-item) queue is answered by exactly
one error ack and leaves the room — queue included — untouched, emitting
nothing; with fewer than 50 items and a classifiable URL the new item is
appended at the queue tail and the single ack is a success. -/
theorem queueAdd_capacity (room : Room) (sender url itemId msgId : String) (now : Int) :
    (room.queue.length = 50 →
      queueAdd room sender url itemId msgId now
        = (room, [], [⟨false, some "Queue is full (max 50 items)"⟩])) ∧
    (room.queue.length < 50 → ∀ vt, detectVideoType url = some vt →
      (queueAdd room sender url itemId msgId now).1.queue
          = room.queue ++ [mkQueueItem room sender url itemId now vt] ∧
      (mkQueueItem room sender url itemId now vt).id = itemId ∧
      (mkQueueItem room sender url itemId now vt).videoUrl = url ∧
      (queueAdd room sender url itemId msgId now).2.2 = [⟨true, none⟩]) := by
  constructor
  · intro h
    simp [queueAdd, h]
  · intro h vt hvt
    refine ⟨?_, ?_, ?_, ?_⟩ <;>
      simp [queueAdd, Nat.not_le.mpr h, hvt, addSystemMessage, mkQueueItem]

/-- C5 witness: the full fixture queue rejects, and the base room accepts
a direct URL, appending at the tail. -/
theorem queueAdd_capacity_witness :
    fullRoom.queue.length = 50 ∧
    queueAdd fullRoom "s1" "https://cdn.example.com/z.mp4" "q9" "m9" 500
      = (fullRoom, [], [⟨false, some "Queue is full (max 50 items)"⟩]) ∧
    detectVideoType "https://cdn.example.com/z.mp4" = some .direct ∧
    (queueAdd baseRoom "s1" "https://cdn.example.com/z.mp4" "q9" "m9" 500).1.queue
      = baseRoom.queue
        ++ [mkQueueItem baseRoom "s1" "https://cdn.example.com/z.mp4" "q9" 500 .direct] :=
  ⟨by simp [fullRoom],
   (queueAdd_capacity fullRoom "s1" "https://cdn.example.com/z.mp4" "q9" "m9" 500).1
     (by simp [fullRoom]),
   by decide,
   ((queueAdd_capacity baseRoom "s1" "https://cdn.example.com/z.mp4" "q9" "m9" 500).2
     (by simp [baseRoom]) .direct (by decide)).1⟩

/-- C7: `screen:start` with an active sharer unicasts a single error to
the sender and changes nothing; with no sharer it records the sender as
sharer, broadcasts one `screen:started {sharerId}` to the other members,
and unicasts the sender exactly one `screen:viewer-joined {viewerId}` for
each other current member — and for nobody else. -/
theorem screenStart_spec (room : Room) (sender s : String) :
    (room.screenSharerId = some s →
      screenStart room sender
        = (room, [.errorMsg (.conn sender) "Someone is already sharing their screen"])) ∧
    (room.screenSharerId = none → (room.users.map Prod.fst).Nodup →
      (screenStart room sender).1 = { room with screenSharerId := some sender } ∧
      (screenStart room sender).2.head? = some (.screenStarted (.others room.id) sender) ∧
      (∀ uid ∈ room.users.map Prod.fst, uid ≠ sender →
        (screenStart room sender).2.count (.screenViewerJoined (.conn sender) uid) = 1) ∧
      (∀ uid, OutEvent.screenViewerJoined (.conn sender) uid ∈ (screenStart room sender).2 →
        uid ∈ room.users.map Prod.fst ∧ uid ≠ sender)) := by
  constructor
  · intro h
    simp [screenStart, h]
  · intro h hn
    have hinj : Function.Injective fun uid => OutEvent.screenViewerJoined (.conn sender) uid :=
      fun a b hab => by simpa using hab
    refine ⟨by simp [screenStart, h], by simp [screenStart, h], ?_, ?_⟩
    · intro uid hm hne
      rw [screenStart]
      simp only [h]
      rw [List.count_cons_of_ne (by simp), List.count_map_of_injective _ _ hinj,
        List.count_filter (by simp [hne]), List.count_eq_one_of_mem hn hm]
    · intro uid hm
      rw [screenStart] at hm
      simp only [h, List.mem_cons, List.mem_map, List.mem_filter] at hm
      rcases hm with hbad | ⟨u, ⟨hu, hne⟩, heq⟩
      · cases hbad
      · cases hinj heq.symm ▸ heq
        · exact ⟨by simpa [hinj heq] using hu, by simpa [hinj heq] using hne⟩

/-- C7 witness: the busy fixture room rejects with one error; in the free
fixture room the sender `s1` gets exactly one viewer-joined for the other
member `s2`. -/
theorem screenStart_witness :
    screenStart busyRoom "s1"
      = (busyRoom, [.errorMsg (.conn "s1") "Someone is already sharing their screen"]) ∧
    (screenStart baseRoom "s1").2.count (.screenViewerJoined (.conn "s1") "s2") = 1 :=
  ⟨(screenStart_spec busyRoom "s1" "s9").1 rfl,
   ((screenStart_spec baseRoom "s1" "s9").2 rfl (by decide)).2.2.1 "s2" (by decide) (by decide)⟩

/-- Inserting at any valid index is a permutation of pushing in front. -/
theorem insertIdx_perm_cons {α : Type} (a : α) :
    ∀ (n : Nat) (l : List α), n ≤ l.length → (l.insertIdx n a).Perm (a :: l)
  | 0, l, _ => by simp [List.insertIdx_zero]
  | n + 1, [], h => by simp at h
  | n + 1, b :: l, h => by
    rw [List.insertIdx_succ_cons]
    exact ((insertIdx_perm_cons a n l (Nat.le_of_succ_le_succ h)).cons b).trans
      (List.Perm.swap a b l)

/-- C10: `queue:reorder` for an unknown item id changes nothing and emits
nothing; for an item present at position `idx`, the new queue is a
permutation of the old one with that item now at position
`clamp(newIndex, 0, length − 1)` — an out-of-range index is clamped, not
rejected — and a single `queue:update` with the new queue is broadcast. -/
theorem queueReorder_spec (room : Room) (itemId : String) (newIndex : Int) :
    (room.queue.findIdx? (fun item => item.id = itemId) = none →
      queueReorder room itemId newIndex = (room, [])) ∧
    (∀ idx item, room.queue.findIdx? (fun item => item.id = itemId) = some idx →
      room.queue[idx]? = some item →
      ((queueReorder room itemId newIndex).1.queue).Perm room.queue ∧
      ((queueReorder room itemId newIndex).1.queue)[(max 0 (min newIndex
          ((room.queue.length : Int) - 1))).toNat]? = some item ∧
      (queueReorder room itemId newIndex).2
        = [.queueUpdate (.room room.id) (queueReorder room itemId newIndex).1.queue]) := by
  constructor
  · intro h
    simp [queueReorder, h]
  · intro idx item hfind hget
    obtain ⟨hlt, hval⟩ := List.getElem?_eq_some.mp hget
    have hlen1 : (room.queue.eraseIdx idx).length + 1 = room.queue.length :=
      List.length_eraseIdx_add_one hlt
    have hj : (max 0 (min newIndex ((room.queue.length : Int) - 1))).toNat
        ≤ (room.queue.eraseIdx idx).length := by omega
    have hmem : item ∈ room.queue := hval ▸ List.getElem_mem hlt
    have p2 : room.queue.Perm (item :: room.queue.eraseIdx idx) :=
      (List.perm_cons_erase hmem).trans ((hval ▸ List.erase_getElem hlt).cons item)
    have hres : (queueReorder room itemId newIndex).1.queue
        = (room.queue.eraseIdx idx).insertIdx
            (max 0 (min newIndex ((room.queue.length : Int) - 1))).toNat item := by
      simp [queueReorder, hfind, hget]
    refine ⟨?_, ?_, ?_⟩
    · rw [hres]
      exact (insertIdx_perm_cons item _ _ hj).trans p2.symm
    · rw [hres]
      have hjlt : (max 0 (min newIndex ((room.queue.length : Int) - 1))).toNat
          < ((room.queue.eraseIdx idx).insertIdx
              (max 0 (min newIndex ((room.queue.length : Int) - 1))).toNat item).length := by
        rw [List.length_insertIdx _ _ hj]
        omega
      exact List.getElem?_eq_some.mpr ⟨hjlt, List.getElem_insertIdx_self _ _ _ hj⟩
    · simp [queueReorder, hfind, hget]

/-- C10 witness: moving the first fixture item with the out-of-range index
99 clamps to the tail position 1. -/
theorem queueReorder_witness :
    queueRoom.queue.findIdx? (fun item => item.id = "q1") = some 0 ∧
    queueRoom.queue[0]? = some itemY ∧
    ((queueReorder queueRoom "q1" 99).1.queue).Perm queueRoom.queue ∧
    ((queueReorder queueRoom "q1" 99).1.queue)[(max 0 (min 99
        ((queueRoom.queue.length : Int) - 1))).toNat]? = some itemY :=
  ⟨by decide, by decide,
   ((queueReorder_spec queueRoom "q1" 99).2 0 itemY (by decide) (by decide)).1,
   ((queueReorder_spec queueRoom "q1" 99).2 0 itemY (by decide) (by decide)).2.1⟩

/-- Lookup distributes over association-list append. -/
theorem lookup_append_or {α : Type} (k : String) (l₁ l₂ : List (String × α)) :
    List.lookup k (l₁ ++ l₂) = (List.lookup k l₁).or (List.lookup k l₂) := by
  induction l₁ with
  | nil => simp
  | cons kv rest ih =>
    obtain ⟨a, b⟩ := kv
    by_cases h : k = a
    · have hb : (k == a) = true := by simp [h]
      simp [List.lookup, hb]
    · have hb : (k == a) = false := by simp [h]
      simp [List.lookup, hb, ih]

/-- A lookup misses exactly when the key is absent. -/
theorem lookup_none_iff {α : Type} (k : String) (l : List (String × α)) :
    List.lookup k l = none ↔ k ∉ l.map Prod.fst := by
  induction l with
  | nil => simp
  | cons kv rest ih =>
    obtain ⟨a, b⟩ := kv
    by_cases h : k = a
    · have hb : (k == a) = true := by simp [h]
      simp [List.lookup, hb, h]
    · have hb : (k == a) = false := by simp [h]
      simp [List.lookup, hb, ih, h]

/-- Replacing the value under a present key makes lookup find it. -/
theorem lookup_map_replace {α : Type} (k : String) (v : α) (m : List (String × α))
    (h : (List.lookup k m).isSome) :
    List.lookup k (m.map fun kv => if kv.1 = k then (k, v) else kv) = some v := by
  induction m with
  | nil => simp at h
  | cons kv rest ih =>
    obtain ⟨a, b⟩ := kv
    by_cases hk : a = k
    · rw [List.map_cons, if_pos hk]
      simp [List.lookup]
    · have hknea : k ≠ a := fun hh => hk hh.symm
      have hb : (k == a) = false := by simp [hknea]
      have h2 : (List.lookup k rest).isSome := by simpa [List.lookup, hb] using h
      rw [List.map_cons, if_neg hk]
      simp [List.lookup, hb, ih h2]

/-- `Map.set` then `Map.get` on the same key yields the set value. -/
theorem lookup_mapSet_self {α : Type} (m : List (String × α)) (k : String) (v : α) :
    List.lookup k (mapSet m k v) = some v := by
  unfold mapSet
  by_cases h : (List.lookup k m).isSome
  · rw [if_pos h]
    exact lookup_map_replace k v m h
  · rw [if_neg h, lookup_append_or]
    have hn : List.lookup k m = none := by
      rcases hh : List.lookup k m with _ | w
      · rfl
      · rw [hh] at h; simp at h
    simp [hn, List.lookup]

/-- `Map.delete` then `Map.get` on the same key misses. -/
theorem lookup_mapDelete_self {α : Type} (m : List (String × α)) (k : String) :
    List.lookup k (mapDelete m k) = none := by
  induction m with
  | nil => rfl
  | cons kv rest ih =>
    obtain ⟨a, b⟩ := kv
    simp only [mapDelete, List.filter_cons] at ih ⊢
    by_cases h : a = k
    · simp [h, ih]
      exact fun x y _ h1 h2 => h1 h2.symm
    · have hknea : k ≠ a := fun hh => h hh.symm
      have hb : (k == a) = false := by simp [hknea]
      simp [h, List.lookup, hb, ih]
      exact fun x y _ h1 h2 => h1 h2.symm

/-- Characterization of the `getExistingProducers` loop body. -/
theorem producingEntry_eq_some (ex : String) (kv : String × PeerState) (e : String × String) :
    producingEntry ex kv = some e ↔
      kv.1 ≠ ex ∧ ∃ p, kv.2.producer = some p ∧ p.closed = false ∧ e = (kv.1, p.id) := by
  obtain ⟨a, peer⟩ := kv
  by_cases ha : a = ex
  · simp [producingEntry, ha]
  · rcases hp : peer.producer with _ | p
    · simp [producingEntry, ha, hp]
    · by_cases hc : p.closed
      · simp [producingEntry, ha, hp, hc]
      · simp [producingEntry, ha, hp, hc]
        exact eq_comm

/-- The socket ids of the produced entries form a sublist of the peer-map
keys. -/
theorem existing_keys_sublist (l : List (String × PeerState)) (ex : String) :
    ((l.filterMap (producingEntry ex)).map Prod.fst).Sublist (l.map Prod.fst) := by
  induction l with
  | nil => simp
  | cons kv rest ih =>
    rw [List.filterMap_cons]
    cases hf : producingEntry ex kv with
    | none => simpa using ih.cons kv.1
    | some e =>
      have he : e.1 = kv.1 := by
        obtain ⟨-, p, -, -, hee⟩ := (producingEntry_eq_some ex kv _).mp hf
        simp [hee]
      rw [List.map_cons, List.map_cons, he]
      exact ih.cons₂ kv.1

/-- List-level contract of `getExistingProducers`: the result never names
the excluded socket, contains `(sid, pid)` exactly for peers with an open
producer, and (under unique keys) names each such peer once. -/
theorem existing_list_spec (l : List (String × PeerState)) (ex : String)
    (hn : (l.map Prod.fst).Nodup) :
    (∀ e ∈ l.filterMap (producingEntry ex), e.1 ≠ ex) ∧
    (∀ sid pid, ((sid, pid) ∈ l.filterMap (producingEntry ex) ↔
      sid ≠ ex ∧ ∃ peer p, (sid, peer) ∈ l ∧ peer.producer = some p ∧
        p.closed = false ∧ pid = p.id)) ∧
    ((l.filterMap (producingEntry ex)).map Prod.fst).Nodup := by
  refine ⟨?_, ?_, (existing_keys_sublist l ex).nodup hn⟩
  · intro e he
    obtain ⟨kv, hkv, hf⟩ := List.mem_filterMap.mp he
    obtain ⟨hne, p, -, -, hee⟩ := (producingEntry_eq_some ex kv _).mp hf
    simpa [hee] using hne
  · intro sid pid
    constructor
    · intro hm
      obtain ⟨kv, hkv, hf⟩ := List.mem_filterMap.mp hm
      obtain ⟨hne, p, hp, hc, hee⟩ := (producingEntry_eq_some ex kv _).mp hf
      obtain ⟨a, peer⟩ := kv
      simp only [Prod.mk.injEq] at hee
      obtain ⟨h1, h2⟩ := hee
      subst h1
      subst h2
      exact ⟨hne, peer, p, hkv, hp, hc, rfl⟩
    · rintro ⟨hne, peer, p, hmem, hp, hc, hpid⟩
      refine List.mem_filterMap.mpr ⟨(sid, peer), hmem, ?_⟩
      exact (producingEntry_eq_some ex (sid, peer) _).mpr ⟨hne, p, hp, hc, by simp [hpid]⟩

/-- Ensuring the router and the peer leaves the peer set unchanged or
appends exactly the fresh caller entry (in which case the caller was not
there before). -/
theorem sfuPeers_ensure (sfu : SfuState) (roomId caller : String) :
    sfuPeers (ensurePeer (ensureSfuRoom sfu roomId) roomId caller) roomId
      = sfuPeers sfu roomId ∨
    (sfuPeers (ensurePeer (ensureSfuRoom sfu roomId) roomId caller) roomId
      = sfuPeers sfu roomId ++ [(caller, emptyPeer)] ∧
     caller ∉ (sfuPeers sfu roomId).map Prod.fst) := by
  cases hr : List.lookup roomId sfu with
  | none =>
    have h1 : List.lookup roomId (ensureSfuRoom sfu roomId) = some ⟨[]⟩ := by
      unfold ensureSfuRoom
      rw [if_neg (by simp [hr]), lookup_append_or, hr]
      simp [List.lookup]
    right
    constructor
    · unfold ensurePeer
      rw [h1]
      simp [List.lookup, sfuPeers, lookup_mapSet_self, hr]
    · simp [sfuPeers, hr]
  | some r =>
    have he : ensureSfuRoom sfu roomId = sfu := by
      unfold ensureSfuRoom
      rw [if_pos (by simp [hr])]
    rw [he]
    cases hc : List.lookup caller r.peers with
    | some pst =>
      left
      simp [ensurePeer, hr, hc]
    | none =>
      right
      constructor
      · simp [ensurePeer, hr, hc, sfuPeers, lookup_mapSet_self]
      · have hnm := (lookup_none_iff caller r.peers).mp hc
        simpa [sfuPeers, hr] using hnm

/-- C8: the `voice:join` ack (sent once, to a sender who is in a room)
lists `(connectionId, producerId)` exactly for the other members of the
room SFU peer set whose producer exists and is not closed — one entry per
such member and never one for the caller. -/
theorem voiceJoin_existingProducers (room : Room) (sfu : SfuState) (caller : String)
    (hn : ((sfuPeers sfu room.id).map Prod.fst).Nodup) :
    ∃ ack, (voiceJoin (some room) sfu caller).acks = [ack] ∧
      (∀ e ∈ ack.existingProducers, e.1 ≠ caller) ∧
      (∀ sid pid, ((sid, pid) ∈ ack.existingProducers ↔
        sid ≠ caller ∧ ∃ peer p, (sid, peer) ∈ sfuPeers sfu room.id ∧
          peer.producer = some p ∧ p.closed = false ∧ pid = p.id)) ∧
      (ack.existingProducers.map Prod.fst).Nodup := by
  have hfm : getExistingProducers
      (ensurePeer (ensureSfuRoom sfu room.id) room.id caller) room.id caller
      = (sfuPeers sfu room.id).filterMap (producingEntry caller) := by
    unfold getExistingProducers
    rcases sfuPeers_ensure sfu room.id caller with heq | ⟨heq, -⟩
    · rw [heq]
    · rw [heq, List.filterMap_append]
      simp [producingEntry]
  obtain ⟨h1, h2, h3⟩ := existing_list_spec (sfuPeers sfu room.id) caller hn
  refine ⟨⟨(sfuPeers sfu room.id).filterMap (producingEntry caller)⟩, ?_, h1, h2, h3⟩
  simp [voiceJoin, hfm]

/-- C8 witness: in the fixture SFU room, caller `s1` is offered exactly
the open producer of `s2` and not the closed one of `s3` nor itself. -/
theorem voiceJoin_existingProducers_witness :
    ((sfuPeers sfuFixture baseRoom.id).map Prod.fst).Nodup ∧
    ∃ ack, (voiceJoin (some baseRoom) sfuFixture "s1").acks = [ack] ∧
      (∀ e ∈ ack.existingProducers, e.1 ≠ "s1") ∧
      (∀ sid pid, ((sid, pid) ∈ ack.existingProducers ↔
        sid ≠ "s1" ∧ ∃ peer p, (sid, peer) ∈ sfuPeers sfuFixture baseRoom.id ∧
          peer.producer = some p ∧ p.closed = false ∧ pid = p.id)) ∧
      (ack.existingProducers.map Prod.fst).Nodup :=
  ⟨by decide, voiceJoin_existingProducers baseRoom sfuFixture "s1" (by decide)⟩

/-- C9: tearing down a voice member (`voice:leave`, and identically the
voice block of the disconnect path) closes the peer resources in the
order all consumers, then the producer, then the send and the receive
transport; removes the peer from the SFU room and the connection from
`voiceUsers`; emits `voice:user-left` to the others; and emits
`voice:producer-closed` exactly when the departing peer had a
producer. -/
theorem voiceTeardown_spec (room : Room) (sfu : SfuState) (caller : String)
    (sroom : SfuRoomState) (peer : PeerState)
    (hr : List.lookup room.id sfu = some sroom)
    (hp : List.lookup caller sroom.peers = some peer)
    (hv : room.voiceUsers.contains caller = true) :
    (voiceLeave room sfu caller).closes
      = (peer.consumers.map fun kv => CloseAction.consumer kv.2.id)
        ++ (peer.producer.map fun p => CloseAction.producer p.id).toList
        ++ (peer.sendTransport.map fun t => CloseAction.transport t.id).toList
        ++ (peer.recvTransport.map fun t => CloseAction.transport t.id).toList ∧
    List.lookup caller (sfuPeers (voiceLeave room sfu caller).sfu room.id) = none ∧
    caller ∉ (voiceLeave room sfu caller).room.voiceUsers ∧
    (voiceLeave room sfu caller).events
      = OutEvent.voiceUserLeft (.others room.id) caller ::
        (peer.producer.map fun p =>
          OutEvent.voiceProducerClosed (.others room.id) caller p.id).toList ∧
    ((∃ pid, OutEvent.voiceProducerClosed (.others room.id) caller pid
        ∈ (voiceLeave room sfu caller).events) ↔ peer.producer.isSome) ∧
    disconnectVoiceCleanup room sfu caller = voiceLeave room sfu caller := by
  refine ⟨?_, ?_, ?_, ?_, ?_, ?_⟩
  · cases hprod : peer.producer <;> cases hst : peer.sendTransport <;>
      cases hrt : peer.recvTransport <;>
      simp [voiceLeave, removePeer, hr, hp, hprod, hst, hrt]
  · have h1 : (voiceLeave room sfu caller).sfu
        = cleanupSfuRoom (mapSet sfu room.id ⟨mapDelete sroom.peers caller⟩) room.id := by
      simp [voiceLeave, removePeer, hr, hp]
    rw [h1]
    have hl1 : List.lookup room.id (mapSet sfu room.id ⟨mapDelete sroom.peers caller⟩)
        = some ⟨mapDelete sroom.peers caller⟩ := lookup_mapSet_self ..
    simp only [cleanupSfuRoom, hl1]
    by_cases hz : mapDelete sroom.peers caller = []
    · simp [hz, sfuPeers, lookup_mapDelete_self, List.lookup]
    · simp [hz, sfuPeers, hl1, lookup_mapDelete_self]
  · simp [voiceLeave, List.mem_filter]
  · cases hprod : peer.producer <;> simp [voiceLeave, removePeer, hr, hp, hprod]
  · cases hprod : peer.producer <;> simp [voiceLeave, removePeer, hr, hp, hprod]
  · unfold disconnectVoiceCleanup
    rw [if_pos hv]

/-- C9 witness: tearing down the fully equipped fixture peer `s1` issues
the close calls in order: its two consumers, its producer, its send
transport, its receive transport. -/
theorem voiceTeardown_witness :
    List.lookup voiceRoom.id sfuLeaveFixture
      = some ⟨[("s1", fullPeer), ("s2", producingPeer)]⟩ ∧
    (voiceLeave voiceRoom sfuLeaveFixture "s1").closes
      = (fullPeer.consumers.map fun kv => CloseAction.consumer kv.2.id)
        ++ (fullPeer.producer.map fun p => CloseAction.producer p.id).toList
        ++ (fullPeer.sendTransport.map fun t => CloseAction.transport t.id).toList
        ++ (fullPeer.recvTransport.map fun t => CloseAction.transport t.id).toList :=
  ⟨by decide,
   (voiceTeardown_spec voiceRoom sfuLeaveFixture "s1"
     ⟨[("s1", fullPeer), ("s2", producingPeer)]⟩ fullPeer
     (by decide) (by decide) (by decide)).1⟩

/-- C6 (the code at the failing input): a `voice:join` from a socket that
is in no room returns without ever invoking its ack callback — the
embedding records zero callback invocations on that path, not the exactly
one the wire contract requires (every other ack-carrying handler answers
this same path with an error or null ack). -/
theorem voiceJoin_no_room_ack_count :
    (voiceJoin none [] "s1").acks = [] ∧ (voiceJoin none [] "s1").events = [] :=
  ⟨rfl, rfl⟩

end WatchTogether
